import Mathlib

/-!
Verification development for the rail feed reader (`main.go`).

The program decodes railway schedule-update messages and renders them as
text; per `Location` it computes an arrival delay in minutes.  The
definitions below are a shallow embedding of the Go code:

* Go strings are `String`; the decoded XML entities (`Message`,
  `UniqueResponse`, `Timestamp`, `Location`, `Event`) are structures with
  the same field names as the Go structs.
* `time.Parse` with the three layout strings appearing in the code
  (`"15:04"`, `"15:04:00"`, `"15:04:05"`) is modelled char-by-char after
  Go's layout scanner: `"15"` reads one or two digits (hour, range 0-23),
  `"04"`/`"05"` read exactly two digits (minute/second, range 0-59), `":"`
  and `"0"` are literals, and trailing input is an error.  A failed parse
  is `none`.
* `Location.Delay` returns `float64` in Go but calls `log.Fatal` (process
  abort) on a parse error; this is modelled by `DelayResult.fatal`.  The
  numeric result `delta.Minutes()` is the exact real number
  `deltaSeconds / 60`, modelled as the rational `mkRat deltaSeconds 60`.
  (All quantities compared in the theorems below are exactly
  representable in `float64`, so no floating-point rounding is lost.)
* Each Go `String()` method becomes a `render` function.  Renders that
  (transitively) call `Delay` return `Option String`, with `none`
  modelling the `log.Fatal` abort; `Event.String` cannot abort and stays
  pure.
* The message loop in `main` prints one rendered block per message and
  dies on `log.Fatal`; `processMessages` models the per-message rendering
  part of that loop.
-/

set_option maxRecDepth 8000

/-- Go struct `Event` (fields `AT`, `ET`, `SRC`). -/
structure Event where
  AT : String
  ET : String
  SRC : String
deriving DecidableEq

/-- The zero value `Event{}` that the code uses as the "absent event" test. -/
def Event.zero : Event := ⟨"", "", ""⟩

/-- Go struct `Location`. -/
structure Location where
  TPL : String
  PTA : String
  PTD : String
  WTA : String
  WTD : String
  WTP : String
  Arrival : Event
  Departure : Event
  Pass : Event
deriving DecidableEq

/-- Go struct `Timestamp`; the `Location` field is the slice of locations
(a nil slice and an empty slice render identically, so both are `[]`). -/
structure Timestamp where
  RID : String
  SSD : String
  UID : String
  Location : List Location

/-- Go struct `UniqueResponse`. -/
structure UniqueResponse where
  UO : String
  TS : Timestamp

/-- Go struct `Message` (namespace attributes included for completeness). -/
structure Message where
  XMLNS : String
  XMLNS2 : String
  XMLNS3 : String
  Timestamp : String
  Version : String
  UR : UniqueResponse

/-- Value of a decimal digit character, `none` otherwise. -/
def digitVal (c : Char) : Option ℕ :=
  if c.isDigit then some (c.toNat - 48) else none

/-- Go `time` layout element `"15"` (hour): one or two digits
(`getnum` with `fixed = false`). -/
def getnum : List Char → Option (ℕ × List Char)
  | [] => none
  | c1 :: rest =>
    match digitVal c1 with
    | none => none
    | some d1 =>
      match rest with
      | c2 :: rest2 =>
        match digitVal c2 with
        | some d2 => some (10 * d1 + d2, rest2)
        | none => some (d1, rest)
      | [] => some (d1, [])

/-- Go `time` layout elements `"04"`/`"05"` (zero-padded minute/second):
exactly two digits (`getnum` with `fixed = true`). -/
def getnumFixed : List Char → Option (ℕ × List Char)
  | c1 :: c2 :: rest =>
    match digitVal c1, digitVal c2 with
    | some d1, some d2 => some (10 * d1 + d2, rest)
    | _, _ => none
  | _ => none

/-- Matching a literal layout character. -/
def expectChar (c : Char) : List Char → Option (List Char)
  | c1 :: rest => if c1 = c then some rest else none
  | [] => none

/-- `time.Parse("15:04", s)`: hour, `':'`, two-digit minute, end of input;
result is the time of day in seconds. -/
def parseHHMM (s : String) : Option ℕ :=
  match getnum s.data with
  | none => none
  | some (h, r1) =>
    match expectChar ':' r1 with
    | none => none
    | some r2 =>
      match getnumFixed r2 with
      | none => none
      | some (m, r3) =>
        if r3 = [] ∧ h < 24 ∧ m < 60 then some (3600 * h + 60 * m) else none

/-- `time.Parse("15:04:00", s)`: in a Go layout `"00"` is not a layout
element, so after the minute the input must contain the literal
characters `':'`, `'0'`, `'0'`.  No seconds are parsed. -/
def parseHHMM00 (s : String) : Option ℕ :=
  match getnum s.data with
  | none => none
  | some (h, r1) =>
    match expectChar ':' r1 with
    | none => none
    | some r2 =>
      match getnumFixed r2 with
      | none => none
      | some (m, r3) =>
        match expectChar ':' r3 with
        | none => none
        | some r4 =>
          match expectChar '0' r4 with
          | none => none
          | some r5 =>
            match expectChar '0' r5 with
            | none => none
            | some r6 =>
              if r6 = [] ∧ h < 24 ∧ m < 60 then some (3600 * h + 60 * m) else none

/-- `time.Parse("15:04:05", s)`: hour, `':'`, two-digit minute, `':'`,
two-digit second, end of input. -/
def parseHHMMSS (s : String) : Option ℕ :=
  match getnum s.data with
  | none => none
  | some (h, r1) =>
    match expectChar ':' r1 with
    | none => none
    | some r2 =>
      match getnumFixed r2 with
      | none => none
      | some (m, r3) =>
        match expectChar ':' r3 with
        | none => none
        | some r4 =>
          match getnumFixed r4 with
          | none => none
          | some (sec, r5) =>
            if r5 = [] ∧ h < 24 ∧ m < 60 ∧ sec < 60 then
              some (3600 * h + 60 * m + sec)
            else none

/-- Actual-time parse in `Location.Delay`: layout `"15:04"` when the
string has length 5, otherwise layout `"15:04:00"`. -/
def arrParse (s : String) : Option ℕ :=
  if s.length = 5 then parseHHMM s else parseHHMM00 s

/-- Scheduled-time parse in `Location.Delay`: layout `"15:04"` when the
string has length 5, otherwise layout `"15:04:05"`. -/
def schedParse (s : String) : Option ℕ :=
  if s.length = 5 then parseHHMM s else parseHHMMSS s

/-- Scheduled-reference selection in `Location.Delay`: `PTA` if non-empty,
else `WTA` if non-empty, else none (the function then returns its
zero-valued named result). -/
def schedSel (pta wta : String) : Option String :=
  if pta ≠ "" then some pta else if wta ≠ "" then some wta else none

/-- Outcome of `Location.Delay`: the Go function returns a `float64`
(`val`), but on a time-parse error it calls `log.Fatal`, which
terminates the whole process (`fatal`). -/
inductive DelayResult where
  | fatal : DelayResult
  | val : ℚ → DelayResult
deriving DecidableEq

/-- Body of `Location.Delay` after the `l.Arrival != (Event{})` guard,
as a function of the three fields it reads (`l.Arrival.AT`, `l.PTA`,
`l.WTA`).  Mirrors the Go control flow: empty actual time returns the
zero named result; the actual time is parsed first (aborting on error);
then the schedule reference is selected and parsed; the delay is
`(actual - est).Minutes()`, i.e. the difference in seconds divided
by 60. -/
def delayCore (a pta wta : String) : DelayResult :=
  if a = "" then .val 0
  else
    match arrParse a with
    | none => .fatal
    | some actual =>
      match schedSel pta wta with
      | none => .val 0
      | some sched =>
        match schedParse sched with
        | none => .fatal
        | some est => .val (mkRat ((actual : ℤ) - (est : ℤ)) 60)

/-- Go method `Location.Delay`.  When the arrival event is the zero value
the guarded block is skipped and the zero named result is returned. -/
def Location.Delay (l : Location) : DelayResult :=
  if l.Arrival = Event.zero then .val 0
  else delayCore l.Arrival.AT l.PTA l.WTA

/-- Go `fmt.Sprintf("%f", d)`: fixed-point with six fractional digits.
Modelled on the exact rational: sign, then the magnitude rounded to the
nearest multiple of 10⁻⁶ (delays are multiples of 1/60 of a minute, which
is never half-way between two such multiples, so the tie direction is
irrelevant). -/
def fmtF (q : ℚ) : String :=
  let neg : Bool := decide (q.num < 0)
  let n : ℕ := (q.num.natAbs * 2000000 + q.den) / (2 * q.den)
  let ip : ℕ := n / 1000000
  let fp : ℕ := n % 1000000
  let fs : String := Nat.repr fp
  let pad : String := String.mk (List.replicate (6 - fs.length) '0')
  (if neg then "-" else "") ++ Nat.repr ip ++ "." ++ pad ++ fs

/-- Go method `Event.String`. -/
def Event.render (e : Event) : String :=
  let s := if e.AT ≠ "" then "ACTUAL " ++ e.AT ++ " " else ""
  let s := if e.ET ≠ "" then s ++ "ESTIMATED " ++ e.ET ++ " " else s
  let s := if e.SRC ≠ "" then s ++ " (Source: " ++ e.SRC ++ ")" else s
  s

/-- The accumulator `s` built by Go `Location.String` before the delay
check: the location code and whichever optional fields are non-empty. -/
def Location.body (l : Location) : String :=
  let s := "\n-- " ++ l.TPL
  let s := if l.PTA ≠ "" then s ++ " | Public Time Arrive: " ++ l.PTA else s
  let s := if l.PTD ≠ "" then s ++ " | Public Time Depart: " ++ l.PTD else s
  let s := if l.WTA ≠ "" then s ++ " | Working Time Arrive: " ++ l.WTA else s
  let s := if l.WTD ≠ "" then s ++ " | Working Time Depart: " ++ l.WTD else s
  let s := if l.WTP ≠ "" then s ++ " | Working Time Pass: " ++ l.WTP else s
  let s := if l.Arrival ≠ Event.zero then s ++ "\n\t** Arr: " ++ l.Arrival.render else s
  let s := if l.Departure ≠ Event.zero then s ++ "\n\t** Dep: " ++ l.Departure.render else s
  let s := if l.Pass ≠ Event.zero then s ++ "\n\t** Pass: " ++ l.Pass.render else s
  s

/-- Go method `Location.String`: the body, then `"\nDELAY: %f"` when
`l.Delay() > 0`, then a trailing newline.  `none` models the process
abort when `Delay` hits a parse error. -/
def Location.render (l : Location) : Option String :=
  match l.Delay with
  | .fatal => none
  | .val d =>
    some (l.body ++ (if 0 < d then "\nDELAY: " ++ fmtF d else "") ++ "\n")

/-- The loop in Go `Timestamp.String`: each location is appended as
`s = Sprintf("%s\n%s", s, l)`. -/
def renderLocs (s : String) : List Location → Option String
  | [] => some s
  | l :: ls =>
    match l.render with
    | none => none
    | some r => renderLocs (s ++ "\n" ++ r) ls

/-- Go method `Timestamp.String`.  Note that each of the `SSD` and `UID`
branches assigns `s = fmt.Sprintf("SSD: %s ", t.SSD)` etc., replacing the
accumulator rather than appending to it. -/
def Timestamp.render (t : Timestamp) : Option String :=
  let s := if t.RID ≠ "" then "RID: " ++ t.RID ++ " " else ""
  let s := if t.SSD ≠ "" then "SSD: " ++ t.SSD ++ " " else s
  let s := if t.UID ≠ "" then "UID: " ++ t.UID ++ " " else s
  renderLocs s t.Location

/-- Go method `UniqueResponse.String`. -/
def UniqueResponse.render (ur : UniqueResponse) : Option String :=
  (ur.TS.render).map (fun ts => "\nUpdate Origin: " ++ ur.UO ++ "\n\n" ++ ts)

/-- Go method `Message.String`. -/
def Message.render (m : Message) : Option String :=
  let hdr := "[" ++ m.Timestamp ++ " v" ++ m.Version ++ "]:"
  if m.UR.UO ≠ "" then (m.UR.render).map (fun u => hdr ++ "\n\t" ++ u)
  else some hdr

/-- The per-message rendering stage of the loop in `main`: each message is
rendered and logged in turn; a `log.Fatal` inside rendering terminates
the process, so no later message is processed. -/
def processMessages : List Message → List String
  | [] => []
  | m :: rest =>
    match m.render with
    | none => []
    | some s => s :: processMessages rest

/-- Specification-side predicate, following the spec's words (section 4.3
steps 1-3 and section 7): the delay is "undefined" when the Arrival event
is absent, or its actual-time field is empty, or neither `PTA` nor `WTA`
is set.  Used to compare the spec's notion of "undefined delay" with what
the code returns. -/
def delayUndefinedSpec (l : Location) : Prop :=
  l.Arrival = Event.zero ∨ l.Arrival.AT = "" ∨ (l.PTA = "" ∧ l.WTA = "")

instance delayUndefinedSpecDec (l : Location) : Decidable (delayUndefinedSpec l) := by
  unfold delayUndefinedSpec; exact inferInstance

/-- `pat` occurs as a contiguous substring of `s`. -/
def strIn (pat s : String) : Prop := pat.data <:+: s.data

instance strInDec (pat s : String) : Decidable (strIn pat s) :=
  List.decidableInfix pat.data s.data

/-- Scenario A fixture: `PTA = "10:00"`, actual arrival `"10:07"`. -/
def locSevenLate : Location :=
  ⟨"STN", "10:00", "", "", "", "", ⟨"10:07", "", ""⟩, Event.zero, Event.zero⟩

/-- A genuine zero-minute delay: `PTA = "10:00"`, actual arrival `"10:00"`. -/
def locOnTime : Location :=
  ⟨"A", "10:00", "", "", "", "", ⟨"10:00", "", ""⟩, Event.zero, Event.zero⟩

/-- An undefined delay: actual arrival present but no `PTA`/`WTA`. -/
def locNoRef : Location :=
  ⟨"B", "", "", "", "", "", ⟨"10:07", "", ""⟩, Event.zero, Event.zero⟩

/-- Unparseable actual time (`"9:5"`) and no schedule reference. -/
def locBadTime : Location :=
  ⟨"X", "", "", "", "", "", ⟨"9:5", "", ""⟩, Event.zero, Event.zero⟩

/-- A location with every optional field empty. -/
def locBare : Location :=
  ⟨"STN", "", "", "", "", "", Event.zero, Event.zero, Event.zero⟩

/-- A location whose arrival event carries only an estimate. -/
def locEstimateOnly : Location :=
  ⟨"E", "10:00", "", "", "", "", ⟨"", "10:09", "TD"⟩, Event.zero, Event.zero⟩

/-- Fixture with both `PTA` and `WTA` present. -/
def locBothRefs : Location :=
  ⟨"S", "10:00", "", "09:00", "", "", ⟨"10:07", "", ""⟩, Event.zero, Event.zero⟩

/-- A message whose only location aborts delay computation. -/
def msgBad : Message :=
  ⟨"", "", "", "t1", "1", ⟨"CIS", ⟨"", "", "", [locBadTime]⟩⟩⟩

/-- A message that renders successfully. -/
def msgGood : Message :=
  ⟨"", "", "", "t2", "1", ⟨"CIS", ⟨"", "", "", [locSevenLate]⟩⟩⟩

/-- A location agreeing with `locSevenLate` on `Arrival.AT`, `PTA`, `WTA`
but differing in every other field. -/
def locSevenLateNoisy : Location :=
  ⟨"OTHER", "10:00", "09:55", "", "10:01", "10:02",
    ⟨"10:07", "10:06", "TD"⟩, ⟨"10:08", "", ""⟩, Event.zero⟩

/-- Concatenation of strings concatenates their character lists. -/
theorem dataAppend (a b : String) : (a ++ b).data = a.data ++ b.data := rfl

/-- Character list of the newline string. -/
theorem newlineData : ("\n" : String).data = ['\n'] := rfl

/-- An occurrence inside a list stays an occurrence after padding on both
sides. -/
theorem infixMiddle {α : Type} {pat b : List α} (a c : List α) (h : pat <:+: b) :
    pat <:+: a ++ b ++ c := by
  obtain ⟨s, t, rfl⟩ := h
  exact ⟨a ++ s, t ++ c, by simp⟩

/-- An occurrence is preserved by appending on the right. -/
theorem infixExtendRight {α : Type} {pat u : List α} (v : List α) (h : pat <:+: u) :
    pat <:+: u ++ v := by
  obtain ⟨s, t, rfl⟩ := h
  exact ⟨s, t ++ v, by simp⟩

/-- An occurrence in `a ++ b` is an occurrence in `b` unless the pattern
uses at least one element of `a`. -/
theorem infixElimLeft {α : Type} {pat b : List α} :
    ∀ a : List α, pat <:+: a ++ b → pat <:+: b ∨ ∃ x ∈ a, x ∈ pat := by
  intro a
  induction a with
  | nil => intro h; exact Or.inl (by simpa using h)
  | cons y a ih =>
    intro h
    obtain ⟨s, t, hst⟩ := h
    cases s with
    | nil =>
      cases pat with
      | nil => exact Or.inl ⟨[], b, by simp⟩
      | cons p ps =>
        right
        refine ⟨y, List.mem_cons_self y a, ?_⟩
        have hp : p = y := by
          have h2 := congrArg (fun l : List α => l.head?) hst
          simpa using h2
        rw [hp]
        exact List.mem_cons_self y ps
    | cons z s' =>
      have hpair : z = y ∧ s' ++ pat ++ t = a ++ b := by simpa using hst
      rcases ih ⟨s', t, hpair.2⟩ with h1 | ⟨x, hx, hxp⟩
      · exact Or.inl h1
      · exact Or.inr ⟨x, List.mem_cons_of_mem y hx, hxp⟩

/-- Occurrences reverse. -/
theorem infixRev {α : Type} {pat L : List α} (h : pat <:+: L) :
    pat.reverse <:+: L.reverse := by
  obtain ⟨s, t, rfl⟩ := h
  exact ⟨t.reverse, s.reverse, by simp⟩

/-- An occurrence in `b ++ c` is an occurrence in `b` unless the pattern
uses at least one element of `c`. -/
theorem infixElimRight {α : Type} {pat b c : List α} (h : pat <:+: b ++ c) :
    pat <:+: b ∨ ∃ x ∈ c, x ∈ pat := by
  have h1 : pat.reverse <:+: c.reverse ++ b.reverse := by
    have h2 := infixRev h
    simpa using h2
  rcases infixElimLeft c.reverse h1 with h3 | ⟨x, hx, hxp⟩
  · left
    have h4 := infixRev h3
    simpa using h4
  · right
    exact ⟨x, by simpa using hx, by simpa using hxp⟩

/-- A pattern occurring in `a ++ b ++ c` whose elements appear in neither
`a` nor `c` occurs in `b`. -/
theorem infixElimMiddle {α : Type} {pat a b c : List α} (h : pat <:+: a ++ b ++ c)
    (ha : ∀ x ∈ a, x ∉ pat) (hc : ∀ x ∈ c, x ∉ pat) : pat <:+: b := by
  rcases infixElimRight h with h1 | ⟨x, hx, hxp⟩
  · rcases infixElimLeft a h1 with h2 | ⟨x, hx, hxp⟩
    · exact h2
    · exact absurd hxp (ha x hx)
  · exact absurd hxp (hc x hx)

/-- C1 counterexample: a Location with a non-empty (but unparseable)
actual arrival time and neither `PTA` nor `WTA` set.  The claim says
`Delay` returns the undefined (no numeric delay) outcome; the code parses
the actual time before looking at the schedule references and calls
`log.Fatal`, aborting the process. -/
theorem C1_cex :
    Location.Delay locBadTime = DelayResult.fatal ∧
    locBadTime.Arrival.AT ≠ "" ∧ locBadTime.PTA = "" ∧ locBadTime.WTA = "" := by
  decide

/-- C1 (amended): for a Location with non-empty `Arrival.AT`, the
reference is `PTA` when non-empty (`WTA` is ignored), otherwise `WTA` is
used exactly as a `PTA` would be; when both are empty the result is the
undefined/zero outcome provided the actual time parses, and a fatal abort
otherwise. -/
theorem C1_reference_selection (l : Location) (h : l.Arrival.AT ≠ "") :
    (l.PTA ≠ "" → ∀ w, l.Delay = Location.Delay { l with WTA := w }) ∧
    (l.PTA = "" → l.Delay = Location.Delay { l with PTA := l.WTA, WTA := "" }) ∧
    (l.PTA = "" → l.WTA = "" →
      ((arrParse l.Arrival.AT).isSome = true → l.Delay = DelayResult.val 0) ∧
      (arrParse l.Arrival.AT = none → l.Delay = DelayResult.fatal)) := by
  have hz : l.Arrival ≠ Event.zero := fun he => h (by rw [he]; rfl)
  have e0 : l.Delay = delayCore l.Arrival.AT l.PTA l.WTA := by
    simp [Location.Delay, hz]
  refine ⟨?_, ?_, ?_⟩
  · intro hp w
    have e1 : Location.Delay { l with WTA := w } = delayCore l.Arrival.AT l.PTA w := by
      simp [Location.Delay, hz]
    rw [e0, e1]
    unfold delayCore
    simp only [if_neg h]
    cases harr : arrParse l.Arrival.AT with
    | none => rfl
    | some actual => simp [schedSel, hp]
  · intro hp
    have e1 : Location.Delay { l with PTA := l.WTA, WTA := "" } =
        delayCore l.Arrival.AT l.WTA "" := by
      simp [Location.Delay, hz]
    rw [e0, e1, hp]
    unfold delayCore
    simp only [if_neg h]
    cases harr : arrParse l.Arrival.AT with
    | none => rfl
    | some actual =>
      by_cases hw : l.WTA = ""
      · simp [schedSel, hw]
      · simp [schedSel, hw]
  · intro hp hw
    constructor
    · intro hs
      obtain ⟨v, hv⟩ := Option.isSome_iff_exists.mp hs
      rw [e0]
      simp [delayCore, h, hp, hw, hv, schedSel]
    · intro hn
      rw [e0]
      simp [delayCore, h, hn]

/-- C1 witness: with both `PTA` and `WTA` set, changing `WTA` does not
change the delay. -/
theorem C1_witness :
    locBothRefs.Arrival.AT ≠ "" ∧
    Location.Delay locBothRefs = Location.Delay { locBothRefs with WTA := "08:00" } :=
  ⟨by decide, (C1_reference_selection locBothRefs (by decide)).1 (by decide) "08:00"⟩

/-- C2 counterexample: a genuine zero-minute delay (`PTA = "10:00"`,
actual `"10:00"`) and an undefined delay (actual present, no reference)
give the same `Delay` result `0.0`, so a caller cannot distinguish
them. -/
theorem C2_cex :
    Location.Delay locOnTime = Location.Delay locNoRef ∧
    ¬ delayUndefinedSpec locOnTime ∧ delayUndefinedSpec locNoRef ∧
    Location.Delay locOnTime = DelayResult.val 0 := by
  decide

/-- C2 (amended): `Delay` returns a bare number and every undefined-delay
location that does not abort gets the value `0.0`, the same value as a
genuine zero-minute delay. -/
theorem C2_undefined_collapses_to_zero (l : Location) (h : delayUndefinedSpec l) :
    ∀ q : ℚ, l.Delay = DelayResult.val q → q = 0 := by
  intro q hq
  rcases h with h1 | h2 | ⟨hp, hw⟩
  · rw [Location.Delay, if_pos h1] at hq
    exact (DelayResult.val.inj hq).symm
  · by_cases h1 : l.Arrival = Event.zero
    · rw [Location.Delay, if_pos h1] at hq
      exact (DelayResult.val.inj hq).symm
    · rw [Location.Delay, if_neg h1] at hq
      rw [delayCore, if_pos h2] at hq
      exact (DelayResult.val.inj hq).symm
  · by_cases h1 : l.Arrival = Event.zero
    · rw [Location.Delay, if_pos h1] at hq
      exact (DelayResult.val.inj hq).symm
    · rw [Location.Delay, if_neg h1] at hq
      by_cases ha : l.Arrival.AT = ""
      · rw [delayCore, if_pos ha] at hq
        exact (DelayResult.val.inj hq).symm
      · rw [delayCore, if_neg ha] at hq
        cases harr : arrParse l.Arrival.AT with
        | none => rw [harr] at hq; simp at hq
        | some actual =>
          rw [harr] at hq
          have hs : schedSel l.PTA l.WTA = none := by simp [schedSel, hp, hw]
          rw [hs] at hq
          exact (DelayResult.val.inj hq).symm

/-- C2 witness: the undefined-delay location `locNoRef` gets exactly the
value zero. -/
theorem C2_witness :
    delayUndefinedSpec locNoRef ∧ Location.Delay locNoRef = DelayResult.val 0 ∧ (0 : ℚ) = 0 :=
  ⟨by decide, by decide, C2_undefined_collapses_to_zero locNoRef (by decide) 0 (by decide)⟩

/-- C3 counterexample: a message whose delay computation hits a
`TimeFormatError` (`"9:5"`) kills the whole loop; the following good
message is never processed. -/
theorem C3_cex :
    processMessages [msgBad, msgGood] = [] ∧
    Message.render msgBad = none ∧ (Message.render msgGood).isSome = true := by
  decide

/-- C3 (amended): a time-format failure inside one message's rendering is
`log.Fatal`: processing stops and no subsequent message produces
output. -/
theorem C3_fatal_halts_loop (m : Message) (rest : List Message)
    (h : Message.render m = none) : processMessages (m :: rest) = [] := by
  simp [processMessages, h]

/-- C3 witness: the loop on `[msgBad, msgGood]` produces nothing. -/
theorem C3_witness :
    Message.render msgBad = none ∧ processMessages [msgBad, msgGood] = [] :=
  ⟨by decide, C3_fatal_halts_loop msgBad [msgGood] (by decide)⟩

/-- C4: the two second-including layouts differ.  The actual-time layout
`"15:04:00"` accepts only a literal `"00"` in the seconds position, so
`"10:07:30"` fails on the actual side while the scheduled side
(`"15:04:05"`) parses it; length-5 strings parse as `HH:MM` on both
sides. -/
theorem C4_layout_mismatch :
    arrParse "10:07:30" = none ∧ schedParse "10:07:30" = some 36450 ∧
    arrParse "10:07" = some 36420 ∧ schedParse "10:07" = some 36420 ∧
    arrParse "10:07:00" = some 36420 := by
  decide

/-- C5: a `Timestamp` with both `RID` and `UID` non-empty renders only
`"UID: u1 "` — the `UID` branch overwrites the accumulator instead of
appending, so `RID` is dropped (it does render when it is the only
identifier). -/
theorem C5_rid_overwritten :
    Timestamp.render ⟨"r1", "", "u1", []⟩ = some "UID: u1 " ∧
    ¬ strIn "RID" "UID: u1 " ∧ ¬ strIn "r1" "UID: u1 " ∧
    Timestamp.render ⟨"r1", "", "", []⟩ = some "RID: r1 " := by
  decide

/-- C6: for a Location whose delay computation returns a value, the
rendered text contains `"DELAY"` exactly when the delay is strictly
positive (assuming the other fields do not themselves contain the text
`"DELAY"`). -/
theorem C6_delay_line_iff_positive (l : Location) (q : ℚ)
    (hd : l.Delay = DelayResult.val q) (hb : ¬ strIn "DELAY" l.body) :
    ∃ s, Location.render l = some s ∧ (strIn "DELAY" s ↔ 0 < q) := by
  refine ⟨l.body ++ (if 0 < q then "\nDELAY: " ++ fmtF q else "") ++ "\n", ?_, ?_⟩
  · rw [Location.render, hd]
  · by_cases hq : 0 < q
    · rw [if_pos hq]
      constructor
      · intro _; exact hq
      · intro _
        show "DELAY".data <:+: _
        rw [dataAppend, dataAppend, dataAppend, newlineData]
        exact infixMiddle _ _ (infixExtendRight _ (by decide))
    · rw [if_neg hq]
      constructor
      · intro hin
        exfalso
        apply hb
        show "DELAY".data <:+: l.body.data
        have hin2 : "DELAY".data <:+: l.body.data ++ ['\n'] := by
          have he : (l.body ++ "" ++ "\n").data = l.body.data ++ ['\n'] := by
            rw [String.append_empty, dataAppend, newlineData]
          rw [← he]
          exact hin
        rcases infixElimRight hin2 with h1 | ⟨x, hx, hxp⟩
        · exact h1
        · simp at hx
          subst hx
          exact absurd hxp (by decide)
      · intro h0
        exact absurd h0 hq

/-- C6 witness: the seven-minute-late location renders with a `DELAY`
line. -/
theorem C6_witness :
    Location.Delay locSevenLate = DelayResult.val 7 ∧
    ¬ strIn "DELAY" (Location.body locSevenLate) ∧
    ∃ s, Location.render locSevenLate = some s ∧ (strIn "DELAY" s ↔ 0 < (7 : ℚ)) :=
  ⟨by decide, by decide, C6_delay_line_iff_positive locSevenLate 7 (by decide) (by decide)⟩

/-- C7: scheduled `PTA = "10:00"` and actual arrival `"10:07"` give a
delay of exactly 7.0 minutes, and the rendered text contains
`"DELAY: 7.000000"`. -/
theorem C7_scenario_seven_minutes :
    Location.Delay locSevenLate = DelayResult.val 7 ∧
    strIn "DELAY: 7.000000" ((Location.render locSevenLate).getD "") := by
  decide

/-- C8: a Location whose Arrival event is the zero value, or whose actual
arrival time is empty, gets the undefined (zero) outcome — in particular
the result never uses the estimated time. -/
theorem C8_absent_arrival_undefined (l : Location)
    (h : l.Arrival = Event.zero ∨ l.Arrival.AT = "") :
    l.Delay = DelayResult.val 0 := by
  rcases h with h | h
  · simp [Location.Delay, h]
  · by_cases h1 : l.Arrival = Event.zero
    · simp [Location.Delay, h1]
    · simp [Location.Delay, h1, delayCore, h]

/-- C8 witness: an arrival event carrying only an estimate yields the
undefined (zero) outcome even though `PTA` is set. -/
theorem C8_witness :
    (locEstimateOnly.Arrival = Event.zero ∨ locEstimateOnly.Arrival.AT = "") ∧
    Location.Delay locEstimateOnly = DelayResult.val 0 :=
  ⟨Or.inr rfl, C8_absent_arrival_undefined locEstimateOnly (Or.inr rfl)⟩

/-- C9 counterexample: a Location with all optional fields empty renders
as `"\n-- STN\n"`, which is not literally "only the location code and a
trailing newline" (it carries the `"\n-- "` prefix). -/
theorem C9_cex :
    Location.render locBare = some "\n-- STN\n" ∧
    "\n-- STN\n" ≠ "STN" ++ "\n" ∧ ¬ strIn "DELAY" "\n-- STN\n" := by
  decide

/-- C9 (amended): rendering a Location with no optional fields set yields
exactly the code line `"\n-- " ++ code ++ "\n"` — the location code with
its rendering prefix and a trailing newline — and no `DELAY` text. -/
theorem C9_bare_render (tpl : String) (h : ¬ strIn "DELAY" tpl) :
    Location.render ⟨tpl, "", "", "", "", "", Event.zero, Event.zero, Event.zero⟩ =
      some ("\n-- " ++ tpl ++ "\n") ∧
    ¬ strIn "DELAY" ("\n-- " ++ tpl ++ "\n") := by
  constructor
  · have h0 : ¬ ((0 : ℚ) < 0) := lt_irrefl 0
    simp [Location.render, Location.Delay, Location.body, Event.zero, h0]
  · intro hin
    apply h
    show "DELAY".data <:+: tpl.data
    have hin2 : "DELAY".data <:+: "\n-- ".data ++ tpl.data ++ "\n".data := by
      rw [← dataAppend, ← dataAppend]
      exact hin
    exact infixElimMiddle hin2 (by decide) (by decide)

/-- C9 witness: the bare location with code `"STN"`. -/
theorem C9_witness :
    ¬ strIn "DELAY" "STN" ∧
    Location.render ⟨"STN", "", "", "", "", "", Event.zero, Event.zero, Event.zero⟩ =
      some ("\n-- " ++ "STN" ++ "\n") :=
  ⟨by decide, (C9_bare_render "STN" (by decide)).1⟩

/-- C10: the delay depends only on `Arrival.AT`, `PTA` and `WTA`; any two
locations agreeing on those three fields get the same result. -/
theorem C10_delay_depends_only_on_refs (l1 l2 : Location)
    (hA : l1.Arrival.AT = l2.Arrival.AT) (hP : l1.PTA = l2.PTA)
    (hW : l1.WTA = l2.WTA) : l1.Delay = l2.Delay := by
  by_cases ha : l1.Arrival.AT = ""
  · have ha2 : l2.Arrival.AT = "" := by rw [← hA]; exact ha
    have e1 : l1.Delay = DelayResult.val 0 := by
      by_cases h1 : l1.Arrival = Event.zero
      · simp [Location.Delay, h1]
      · simp [Location.Delay, h1, delayCore, ha]
    have e2 : l2.Delay = DelayResult.val 0 := by
      by_cases h2 : l2.Arrival = Event.zero
      · simp [Location.Delay, h2]
      · simp [Location.Delay, h2, delayCore, ha2]
    rw [e1, e2]
  · have h1 : l1.Arrival ≠ Event.zero := fun he => ha (by rw [he]; rfl)
    have h2 : l2.Arrival ≠ Event.zero := fun he => ha (by rw [hA, he]; rfl)
    simp [Location.Delay, h1, h2, hA, hP, hW]

/-- C10 witness: two locations sharing only `Arrival.AT`, `PTA`, `WTA`
(and differing in code, other times, departure event, and the arrival's
estimate/source) get the same delay. -/
theorem C10_witness :
    locSevenLate.Arrival.AT = locSevenLateNoisy.Arrival.AT ∧
    Location.Delay locSevenLate = Location.Delay locSevenLateNoisy :=
  ⟨rfl, C10_delay_depends_only_on_refs locSevenLate locSevenLateNoisy rfl rfl rfl⟩
